import Mathlib

/-!
# Verification of the cmd-nsc network-service client core

A shallow embedding, in Lean 4, of the network-service descriptor language and
the connection lifecycle of the `networkservicemesh/cmd-nsc` client, together
with proofs of the testable properties stated in its specification.

The embedding follows the Go sources:

* `pkg/config/config.go` — descriptor parsing (`UnmarshalBinary`), validation
  (`IsValid`) and default merging (`MergeWithConfigOptions`);
* `main.go` — request grouping (`appendNSConf`), request construction in
  `RunClient`, and the shutdown close loop;
* the monitor/heal revision of `main.go` — `constructRequest` (monitored
  snapshot lookup, liveness-gated reselect) and the per-descriptor
  request/retry loop with its deferred close calls.

Go maps are modelled as association lists (first binding wins on lookup),
Go slices as lists, and fallible Go functions return an explicit result type
with a constructor for runtime panics where the source can index out of
bounds.  External collaborators (the `net/url` parser, the gRPC client, the
kernel liveness probe) are modelled as inputs, mirroring the narrow contract
the client consumes.
-/

set_option autoImplicit false

namespace NSC

/-- Outcome of a fallible Go function: a value, an `error` return, or a Go
runtime panic (used where the source can fault, e.g. out-of-range indexing). -/
inductive GoResult (α : Type) where
  | ok : α → GoResult α
  | err : String → GoResult α
  | panic : String → GoResult α
  deriving Repr, DecidableEq

/-- `true` iff the result is an `error` return (neither success nor panic). -/
def GoResult.isErr {α : Type} : GoResult α → Bool
  | .err _ => true
  | _ => false

/-- `kernel.MECHANISM` from the networkservicemesh api package. -/
def kernelMECHANISM : String := "KERNEL"

/-- `vfio.MECHANISM` from the networkservicemesh api package. -/
def vfioMECHANISM : String := "VFIO"

/-- `configMechanisms` (pkg/config/config.go): the supported URL schemes and
the mechanism constant each maps to. -/
def configMechanisms (scheme : String) : Option String :=
  if scheme = "kernel" then some kernelMECHANISM
  else if scheme = "vfio" then some vfioMECHANISM
  else none

/-- `NetworkServiceConfig` (pkg/config/config.go): one parsed network-service
descriptor.  `Labels` models the Go `map[string]string` as an association
list; lookups take the first binding. -/
structure NetworkServiceConfig where
  NetworkService : String
  Path : List String
  Mechanism : String
  Labels : List (String × String)
  deriving Repr, DecidableEq

/-- The components of a descriptor text after URL-splitting by Go's `net/url`
parser (an external collaborator of the client; the client's own code starts
from these components).  `Hostname` is the result of `u.Hostname()`, `Path`
the raw path, and `Query` the query's key/value pairs in text order
(duplicate keys allowed). -/
structure ParsedURL where
  Scheme : String
  Hostname : String
  Path : String
  Query : List (String × String)
  deriving Repr, DecidableEq

/-- Split a character list at every occurrence of `sep`.  Splitting the empty
list yields one empty piece, matching Go's `strings.Split("", sep) = [""]`. -/
def splitOnCharAux (sep : Char) : List Char → List (List Char)
  | [] => [[]]
  | c :: rest =>
    match splitOnCharAux sep rest with
    | h :: t => if c = sep then [] :: h :: t else (c :: h) :: t
    | [] => [[c]]

/-- Go's `strings.Split(s, sep)` for a one-character separator (the source
only ever splits on `"/"` and `"="`). -/
def goSplit (sep : Char) (s : String) : List String :=
  (splitOnCharAux sep s.data).map fun cs => ⟨cs⟩

/-- The path-segment split of `UnmarshalBinary`: split the URL path on `/`
and discard empty segments, keeping order. -/
def splitPathSegments (p : String) : List String :=
  (goSplit '/' p).filter (fun segm => segm ≠ "")

/-- The label map built by `UnmarshalBinary` from `u1.Query()`: each key maps
to the first value it carries in the query (`v[0]`).  Represented as an
association list with unique keys. -/
def queryLabels : List (String × String) → List (String × String)
  | [] => []
  | (k, v) :: rest => (k, v) :: (queryLabels rest).filter (fun p => p.1 ≠ k)

/-- `NetworkServiceConfig.UnmarshalBinary` (pkg/config/config.go, lines
72-108), starting from the already-split URL: scheme → mechanism (must be a
supported scheme when non-empty), hostname → service name, path → segments,
query → labels, and the host-less shorthand that promotes the first path
segment to the service name. -/
def UnmarshalBinary (u : ParsedURL) : GoResult NetworkServiceConfig :=
  let mech :=
    if u.Scheme ≠ "" then
      match configMechanisms u.Scheme with
      | some m => GoResult.ok m
      | none => GoResult.err ("invalid mechanism specified " ++ u.Scheme)
    else GoResult.ok ""
  match mech with
  | .ok m =>
    let path := splitPathSegments u.Path
    let labels := queryLabels u.Query
    if u.Hostname = "" ∧ path ≠ [] then
      .ok { NetworkService := path.headI, Path := path.tail,
            Mechanism := m, Labels := labels }
    else
      .ok { NetworkService := u.Hostname, Path := path,
            Mechanism := m, Labels := labels }
  | .err e => .err e
  | .panic e => .panic e

/-- Byte length of a Go string (`len` on a Go `string` counts UTF-8 bytes). -/
def goLen (s : String) : Nat := s.utf8ByteSize

/-- `NetworkServiceConfig.IsValid` (pkg/config/config.go, lines 111-131).
For the kernel mechanism the source checks `len(cfg.Path) > 1` and then
indexes `cfg.Path[0]` unconditionally; on an empty path that index is out of
range, which is a Go runtime panic, modelled by `GoResult.panic`. -/
def NetworkServiceConfig.IsValid (cfg : NetworkServiceConfig) : GoResult Unit :=
  if cfg.NetworkService = "" then .err "no network service specified"
  else if cfg.Mechanism = kernelMECHANISM then
    if cfg.Path.length > 1 then .err "invalid client interface name specified"
    else
      match cfg.Path with
      | [] => .panic "runtime error: index out of range [0] with length 0"
      | p0 :: _ =>
        if goLen p0 > 15 then .err "interface part cannot exceed 15 characters"
        else .ok ()
  else if cfg.Mechanism = vfioMECHANISM then
    if cfg.Path.length > 0 then .err "no path supported for the VFIO mechanism"
    else .ok ()
  else .ok ()

/-- The fields of `Config` (pkg/config/config.go) read by the functions
modelled here: the client name, the default labels (`key=value` strings), the
default mechanism tag, and the list of parsed network-service descriptors. -/
structure Config where
  Name : String
  Labels : List String
  Mechanism : String
  NetworkServices : List NetworkServiceConfig
  deriving Repr, DecidableEq

/-- Go's `strings.Trim(s, " ")`: strip leading and trailing space characters. -/
def trimSpaces (s : String) : String :=
  ⟨((s.data.dropWhile (fun c => c = ' ')).reverse.dropWhile (fun c => c = ' ')).reverse⟩

/-- The `keyValue` split of one root-config label entry in
`MergeWithConfigOptions`: `strings.Split(kv, "=")`, replaced by `["", ""]`
when it does not yield exactly two parts. -/
def entryKeyValue (kv : String) : String × String :=
  match goSplit '=' kv with
  | [k, v] => (k, v)
  | _ => ("", "")

/-- One iteration of the label-default loop of `MergeWithConfigOptions`:
split a `key=value` entry, trim spaces, and add the binding only when the
key is absent from the descriptor's labels. -/
def mergeLabelStep (labels : List (String × String)) (kv : String) :
    List (String × String) :=
  let key := trimSpaces (entryKeyValue kv).1
  if (labels.lookup key).isSome then labels
  else labels ++ [(key, trimSpaces (entryKeyValue kv).2)]

/-- The label-default loop of `MergeWithConfigOptions` over all root-config
label entries, in slice order. -/
def mergeLabels (labels : List (String × String)) (confLabels : List String) :
    List (String × String) :=
  confLabels.foldl mergeLabelStep labels

/-- `NetworkServiceConfig.MergeWithConfigOptions` (pkg/config/config.go,
lines 134-162): fill the mechanism from the root config when unset (failing
on a missing or unsupported default), copy in absent default labels, then
validate.  Returns the mutated descriptor together with the function's
result; on the early error returns the descriptor is unchanged. -/
def NetworkServiceConfig.MergeWithConfigOptions (cfg : NetworkServiceConfig)
    (conf : Config) : NetworkServiceConfig × GoResult Unit :=
  if cfg.Mechanism = "" ∧ conf.Mechanism = "" then
    (cfg, .err "no mechanism specified")
  else
    let step1 : GoResult NetworkServiceConfig :=
      if cfg.Mechanism = "" ∧ conf.Mechanism ≠ "" then
        match configMechanisms conf.Mechanism with
        | some m => .ok { cfg with Mechanism := m }
        | none => .err ("invalid mechanism specified " ++ conf.Mechanism)
      else .ok cfg
    match step1 with
    | .ok cfg1 =>
      let cfg2 := { cfg1 with Labels := mergeLabels cfg1.Labels conf.Labels }
      (cfg2, cfg2.IsValid)
    | .err e => (cfg, .err e)
    | .panic e => (cfg, .panic e)

/-- Go `reflect.DeepEqual` on two `map[string]string` values, over the
association-list representation: the maps agree on every key either side
mentions. -/
def labelsDeepEqual (a b : List (String × String)) : Bool :=
  a.all (fun p => b.lookup p.1 == a.lookup p.1) &&
    b.all (fun p => a.lookup p.1 == b.lookup p.1)

/-- `requestConfig` (main.go): one request grouping — a service name, its
label map, and the descriptors grouped into the single request. -/
structure RequestConfig where
  nsName : String
  labels : List (String × String)
  nsConfs : List NetworkServiceConfig
  deriving Repr, DecidableEq

/-- `appendNSConf` (main.go, lines 488-500): a descriptor joins the first
existing group with the same service name and `DeepEqual` labels; otherwise
it starts a new group at the end. -/
def appendNSConf (nsConf : NetworkServiceConfig) :
    List RequestConfig → List RequestConfig
  | [] => [{ nsName := nsConf.NetworkService, labels := nsConf.Labels,
             nsConfs := [nsConf] }]
  | rc :: rest =>
    if rc.nsName = nsConf.NetworkService ∧ labelsDeepEqual rc.labels nsConf.Labels then
      { rc with nsConfs := rc.nsConfs ++ [nsConf] } :: rest
    else rc :: appendNSConf nsConf rest

/-- The grouping loop of `RunClient` (main.go): fold `appendNSConf` over the
merged descriptors in configuration order. -/
def groupConfigs (confs : List NetworkServiceConfig) : List RequestConfig :=
  confs.foldl (fun acc c => appendNSConf c acc) []

/-- The connection part of one request issued by `RunClient` (main.go, lines
453-460): id `"<name>-<len(connections)>"`, the group's service name and
labels. -/
structure ClientRequest where
  id : String
  networkService : String
  labels : List (String × String)
  deriving Repr, DecidableEq

/-- The sequence of requests `RunClient` (main.go) issues for a configuration,
one per group, with ids `name-0`, `name-1`, … (each successful request appends
one connection, so `len(connections)` equals the group's position). -/
def runClientRequests (name : String) (confs : List NetworkServiceConfig) :
    List ClientRequest :=
  (groupConfigs confs).enum.map fun p =>
    { id := name ++ "-" ++ toString p.1,
      networkService := p.2.nsName, labels := p.2.labels }

/-- The connections accumulated by `RunClient` (main.go): requests are issued
in order and on the first failed request the function returns, keeping the
connections established so far.  `outcome i` tells whether request `i`
succeeds; `i` is the index of the next request. -/
def establishedConns (outcome : Nat → Bool) : Nat → List ClientRequest →
    List ClientRequest
  | _, [] => []
  | i, r :: rest =>
    if outcome i then r :: establishedConns outcome (i + 1) rest else []

/-- One close call of the shutdown loop: the connection id and whether the
close failed (failures are only logged). -/
structure CloseCall where
  connId : String
  failed : Bool
  deriving Repr, DecidableEq

/-- The shutdown loop of `main` (main.go, lines 341-348): iterate over the
established connections in the order they were added, closing each exactly
once; a failed close is logged and the loop continues with the next entry. -/
def cleanupTrace (closeFails : String → Bool) (conns : List ClientRequest) :
    List CloseCall :=
  conns.map fun c => { connId := c.id, failed := closeFails c.id }

/-- The close order of the deferred-shutdown revision (`constructRequest`
era `main`, lines 289-293): each established descriptor registers
`defer nsmClient.Close(...)` inside `main`, and Go runs deferred calls in
last-in-first-out order when `main` returns, so the closes happen in reverse
order of registration. -/
def deferredCloseOrder (connIds : List String) : List String :=
  connIds.reverse

/-! ## The monitor/heal revision: `constructRequest` and the request loop

The embedding below follows the latest `main` revision (the file with
`constructRequest`): connections carry a state, a path of segments with a
current index, an optional mechanism and an optional connection context;
monitored snapshots arrive from the manager's event stream and are cached in
a map keyed by connection name. -/

/-- `networkservice.State` of the api package (the values used by the
client). -/
inductive ConnState where
  | UP
  | DOWN
  | REFRESH_REQUESTED
  | RESELECT_REQUESTED
  deriving Repr, DecidableEq

/-- One segment of a connection path (`networkservice.PathSegment`): only the
segment id is read by the client. -/
structure PathSegment where
  id : String
  deriving Repr, DecidableEq

/-- `networkservice.Path`: the end-to-end hop list and the current index. -/
structure ConnPath where
  index : Nat
  pathSegments : List PathSegment
  deriving Repr, DecidableEq

/-- `networkservice.Mechanism`: only the mechanism type is read by the
request-construction code modelled here. -/
structure Mechanism where
  type : String
  deriving Repr, DecidableEq

/-- `networkservice.Connection`, restricted to the fields the client reads or
writes.  `mechanism`, `context` and `path` are nilable pointers in the
source, hence `Option`; the connection context itself is opaque to the
client (it only ever sets it to nil). -/
structure Connection where
  id : String
  networkService : String
  mechanism : Option Mechanism
  networkServiceEndpointName : String
  context : Option Unit
  state : ConnState
  path : Option ConnPath
  labels : List (String × String)
  deriving Repr, DecidableEq

/-- The descriptor view `constructRequest` reads off an `nsurl.NSURL` (an
sdk collaborator): the service name, the label map and the mechanism
preference derived from the URL. -/
structure NSURL where
  networkService : String
  labels : List (String × String)
  mechanism : Mechanism
  deriving Repr, DecidableEq

/-- `networkservice.NetworkServiceRequest`, restricted to the fields the
client populates. -/
structure NetworkServiceRequest where
  connection : Connection
  mechanismPreferences : List Mechanism
  deriving Repr, DecidableEq

/-- The candidate connection `constructRequest` builds before consulting the
monitor: fresh id, service name and labels from the descriptor URL, no
mechanism, no endpoint, no path (proto zero values). -/
def freshConnection (connectionID : String) (u : NSURL) : Connection :=
  { id := connectionID, networkService := u.networkService,
    mechanism := none, networkServiceEndpointName := "", context := none,
    state := .UP, path := none, labels := u.labels }

/-- The match predicate of the `monitoredConnections.Range` loop in
`constructRequest`: the snapshot's path is at index 1, its first segment id
is the descriptor's connection id, and its mechanism type is the
descriptor's.  Monitored snapshots always carry a path and a mechanism (the
source dereferences both unconditionally). -/
def connMatches (connectionID : String) (mechType : String)
    (conn : Connection) : Bool :=
  match conn.path, conn.mechanism with
  | some path, some mech =>
    path.index = 1 &&
      (match path.pathSegments with
       | seg :: _ => seg.id = connectionID
       | [] => false) &&
      mech.type = mechType
  | _, _ => false

/-- The `monitoredConnections.Range` loop of `constructRequest`: scan the
cached snapshots and stop at the first one matching `connMatches` (the cache
is keyed by connection name; the scan order is the map's range order). -/
def lookupMonitored (connectionID : String) (mechType : String) :
    List (String × Connection) → Option Connection
  | [] => none
  | (_, conn) :: rest =>
    if connMatches connectionID mechType conn then some conn
    else lookupMonitored connectionID mechType rest

/-- The normalization `constructRequest` applies to a matched snapshot before
reuse: path index reset to 0 and the id rewritten to the canonical
descriptor id. -/
def normalizeSnapshot (connectionID : String) (conn : Connection) : Connection :=
  { conn with id := connectionID,
              path := conn.path.map fun p => { p with index := 0 } }

/-- The reselect rewrite of `constructRequest` (the body of the `DOWN`
branch): clear mechanism, endpoint name and context, and request endpoint
reselection. -/
def reselectConnection (conn : Connection) : Connection :=
  { conn with mechanism := none, networkServiceEndpointName := "",
              context := none, state := .RESELECT_REQUESTED }

/-- `constructRequest` of the monitor/heal `main` revision (lines 305-344):
build the fresh candidate, replace it by the normalized monitored snapshot
when one matches, then — when the snapshot's state is `DOWN` and either the
liveness check is disabled or the probe (`kernelheal.KernelLivenessCheck`,
modelled as the boolean-valued argument `probe`) reports not-alive — apply
the reselect rewrite. -/
def constructRequest (livenessCheckEnabled : Bool) (probe : Connection → Bool)
    (connectionID : String) (u : NSURL)
    (monitored : List (String × Connection)) : NetworkServiceRequest :=
  let request : NetworkServiceRequest :=
    { connection := freshConnection connectionID u,
      mechanismPreferences := [u.mechanism] }
  let request :=
    match lookupMonitored connectionID u.mechanism.type monitored with
    | some conn => { request with connection := normalizeSnapshot connectionID conn }
    | none => request
  if request.connection.state = ConnState.DOWN &&
      (!livenessCheckEnabled || !probe request.connection) then
    { request with connection := reselectConnection request.connection }
  else request

/-- State of one descriptor's request loop: `running i` means iteration `i`
is about to issue a request; `exited i` means iteration `i` succeeded and the
loop has broken out. -/
inductive LoopState where
  | running (iteration : Nat)
  | exited (iteration : Nat)
  deriving Repr, DecidableEq

/-- One iteration of the per-descriptor request loop of the monitor/heal
`main` revision (lines 279-297): construct a request and issue it; on error
the loop `continue`s unconditionally — the body contains no cancellation
check — and only a successful request `break`s.  `outcome i` is whether the
`nsmClient.Request` call of iteration `i` succeeds (on a cancelled context
every call fails). -/
def loopStep (outcome : Nat → Bool) : LoopState → LoopState
  | .running i => if outcome i then .exited i else .running (i + 1)
  | .exited i => .exited i

/-- The request loop after `n` iterations, starting from `running 0`. -/
def loopRun (outcome : Nat → Bool) : Nat → LoopState
  | 0 => .running 0
  | n + 1 => loopStep outcome (loopRun outcome n)

/-! ## Shared lemmas -/

/-- Dropping the bindings of one key does not change lookups of other keys. -/
theorem lookup_filter_ne (rest : List (String × String)) (k k0 : String)
    (hk : k ≠ k0) :
    (rest.filter (fun p => p.1 ≠ k0)).lookup k = rest.lookup k := by
  induction rest with
  | nil => rfl
  | cons p rest2 ih =>
    obtain ⟨pk, pv⟩ := p
    by_cases hp : pk = k0
    · have hbeq : (k == k0) = false := beq_false_of_ne hk
      simp only [List.filter_cons]
      simp only [hp]
      simp only [List.lookup_cons, hbeq]
      simpa using ih
    · simp only [List.filter_cons]
      simp only [decide_eq_true_eq]
      rw [if_pos (by simpa using hp)]
      simp only [List.lookup_cons]
      cases hkp : k == pk with
      | true => rfl
      | false => simpa using ih

/-- `queryLabels` preserves first-occurrence lookups: the label map built from
the query answers every key with the first value that key carries in the
query (so on duplicate keys the first value wins). -/
theorem lookup_queryLabels (q : List (String × String)) (k : String) :
    (queryLabels q).lookup k = q.lookup k := by
  induction q with
  | nil => rfl
  | cons p rest ih =>
    obtain ⟨k0, v⟩ := p
    by_cases hk : k = k0
    · subst hk
      simp [queryLabels, List.lookup_cons]
    · have hbeq : (k == k0) = false := beq_false_of_ne hk
      simp only [queryLabels, List.lookup_cons, hbeq]
      rw [lookup_filter_ne _ k k0 hk, ih]

/-- A character list is no longer than its UTF-8 byte count. -/
theorem length_le_utf8Len (cs : List Char) : cs.length ≤ String.utf8Len cs := by
  induction cs with
  | nil => simp
  | cons c cs ih =>
    have hc := Char.utf8Size_pos c
    simp only [List.length_cons, String.utf8Len_cons]
    omega

/-- A string's character count is at most its Go byte length. -/
theorem length_le_goLen (s : String) : s.length ≤ goLen s := by
  cases s with
  | mk data =>
    simpa [goLen, String.length] using length_le_utf8Len data

/-! ## C2 — descriptor parsing -/

/-- C2: for every descriptor text (given by its URL components),
`UnmarshalBinary` maps the URL scheme to the mechanism tag, failing when a
present scheme is outside the supported set; maps the hostname to the
service name; splits the URL path on `/` discarding empty segments, in
order; maps each query key to a label, the first value winning on duplicate
keys; and, when the host is empty and at least one path segment exists,
promotes the first path segment to the service name and drops it from the
path. -/
theorem unmarshalBinary_parses_descriptor (u : ParsedURL) :
    (u.Scheme ≠ "" → configMechanisms u.Scheme = none →
      (UnmarshalBinary u).isErr = true)
  ∧ (∀ cfg, UnmarshalBinary u = .ok cfg →
      (u.Scheme ≠ "" → configMechanisms u.Scheme = some cfg.Mechanism)
      ∧ (u.Scheme = "" → cfg.Mechanism = "")
      ∧ (∀ k, cfg.Labels.lookup k = u.Query.lookup k)
      ∧ (u.Hostname = "" → ∀ s0 rest, splitPathSegments u.Path = s0 :: rest →
           cfg.NetworkService = s0 ∧ cfg.Path = rest)
      ∧ ((u.Hostname ≠ "" ∨ splitPathSegments u.Path = []) →
           cfg.NetworkService = u.Hostname ∧ cfg.Path = splitPathSegments u.Path)) := by
  have hshape : ∀ (m : String) (cfg : NetworkServiceConfig),
      (if u.Hostname = "" ∧ splitPathSegments u.Path ≠ [] then
        GoResult.ok { NetworkService := (splitPathSegments u.Path).headI,
                      Path := (splitPathSegments u.Path).tail, Mechanism := m,
                      Labels := queryLabels u.Query }
       else
        GoResult.ok { NetworkService := u.Hostname, Path := splitPathSegments u.Path,
                      Mechanism := m, Labels := queryLabels u.Query }) = GoResult.ok cfg →
      cfg.Mechanism = m
      ∧ (∀ k, cfg.Labels.lookup k = u.Query.lookup k)
      ∧ (u.Hostname = "" → ∀ s0 rest, splitPathSegments u.Path = s0 :: rest →
           cfg.NetworkService = s0 ∧ cfg.Path = rest)
      ∧ ((u.Hostname ≠ "" ∨ splitPathSegments u.Path = []) →
           cfg.NetworkService = u.Hostname ∧ cfg.Path = splitPathSegments u.Path) := by
    intro m cfg hcfg
    by_cases hh : u.Hostname = "" ∧ splitPathSegments u.Path ≠ []
    · rw [if_pos hh] at hcfg
      injection hcfg with hcfg
      subst hcfg
      refine ⟨rfl, fun k => lookup_queryLabels _ k,
        fun _ s0 rest hsp => by simp [hsp], fun h => ?_⟩
      rcases h with h | h
      · exact absurd hh.1 h
      · exact absurd h hh.2
    · rw [if_neg hh] at hcfg
      injection hcfg with hcfg
      subst hcfg
      exact ⟨rfl, fun k => lookup_queryLabels _ k,
        fun hh1 s0 rest hsp => absurd ⟨hh1, by simp [hsp]⟩ hh, fun _ => ⟨rfl, rfl⟩⟩
  by_cases hs : u.Scheme = ""
  · refine ⟨fun h => absurd hs h, fun cfg hcfg => ?_⟩
    simp only [UnmarshalBinary, if_neg (show ¬u.Scheme ≠ "" by simpa using hs)] at hcfg
    obtain ⟨h1, h2, h3, h4⟩ := hshape "" cfg hcfg
    exact ⟨fun h => absurd hs h, fun _ => h1, h2, h3, h4⟩
  · cases hm : configMechanisms u.Scheme with
    | none =>
      refine ⟨fun _ _ => ?_, fun cfg hcfg => ?_⟩
      · simp only [UnmarshalBinary, if_pos hs, hm]
        rfl
      · simp only [UnmarshalBinary, if_pos hs, hm] at hcfg
        cases hcfg
    | some m =>
      refine ⟨fun _ hnone => (by cases hnone), fun cfg hcfg => ?_⟩
      simp only [UnmarshalBinary, if_pos hs, hm] at hcfg
      obtain ⟨h1, h2, h3, h4⟩ := hshape m cfg hcfg
      refine ⟨fun _ => ?_, fun h => absurd h hs, h2, h3, h4⟩
      rw [h1]

/-- Witness for C2 at concrete descriptors: `memif://x` is rejected (scheme
outside the supported set), and `kernel://my-service/nsmKernel?a=20&a=30`
parses to service `my-service`, path `["nsmKernel"]`, the kernel mechanism,
and label `a = 20` (first query value wins). -/
theorem unmarshalBinary_parses_descriptor_witness :
    (UnmarshalBinary ⟨"memif", "x", "", []⟩).isErr = true
  ∧ configMechanisms "kernel" =
      some (match UnmarshalBinary ⟨"kernel", "my-service", "/nsmKernel",
        [("a", "20"), ("a", "30")]⟩ with
        | .ok cfg => cfg.Mechanism
        | _ => "") := by
  constructor
  · exact (unmarshalBinary_parses_descriptor ⟨"memif", "x", "", []⟩).1
      (by decide) (by rfl)
  · have h := (unmarshalBinary_parses_descriptor
      ⟨"kernel", "my-service", "/nsmKernel", [("a", "20"), ("a", "30")]⟩).2
      { NetworkService := "my-service", Path := ["nsmKernel"],
          Mechanism := kernelMECHANISM, Labels := [("a", "20")] } (by rfl)
    simpa using h.1 (by decide)

/-! ## C5 / C10 — mechanism validation -/

/-- C5: validation fails (returns an error) for every kernel descriptor with
two or more path segments, for every kernel descriptor carrying a path
segment longer than 15 characters, and for every device (vfio) descriptor
with at least one path segment. -/
theorem isValid_mechanism_rules (cfg : NetworkServiceConfig) :
    (cfg.Mechanism = kernelMECHANISM → 2 ≤ cfg.Path.length →
        cfg.IsValid.isErr = true)
  ∧ (cfg.Mechanism = kernelMECHANISM → ∀ seg ∈ cfg.Path, 15 < seg.length →
        cfg.IsValid.isErr = true)
  ∧ (cfg.Mechanism = vfioMECHANISM → cfg.Path ≠ [] →
        cfg.IsValid.isErr = true) := by
  obtain ⟨ns, path, mech, labels⟩ := cfg
  refine ⟨?_, ?_, ?_⟩
  · intro hm hlen
    replace hm : mech = kernelMECHANISM := hm
    replace hlen : 2 ≤ path.length := hlen
    subst hm
    by_cases hns : ns = ""
    · simp [NetworkServiceConfig.IsValid, hns, GoResult.isErr]
    · have h1 : path.length > 1 := by omega
      simp [NetworkServiceConfig.IsValid, hns, h1, GoResult.isErr]
  · intro hm seg hseg hlen
    replace hm : mech = kernelMECHANISM := hm
    replace hseg : seg ∈ path := hseg
    subst hm
    by_cases hns : ns = ""
    · simp [NetworkServiceConfig.IsValid, hns, GoResult.isErr]
    · match path, hseg with
      | p0 :: q :: rest, _ =>
        have h1 : (p0 :: q :: rest).length > 1 := by simp
        simp [NetworkServiceConfig.IsValid, hns, h1, GoResult.isErr]
      | [p0], hseg =>
        have hsp : seg = p0 := by simpa using hseg
        have h2 : 15 < goLen p0 := by
          have h1 := length_le_goLen p0
          rw [hsp] at hlen
          omega
        simp [NetworkServiceConfig.IsValid, hns, h2, GoResult.isErr]
  · intro hm hne
    replace hm : mech = vfioMECHANISM := hm
    replace hne : path ≠ [] := hne
    subst hm
    by_cases hns : ns = ""
    · simp [NetworkServiceConfig.IsValid, hns, GoResult.isErr]
    · have h1 : path.length > 0 := List.length_pos.mpr hne
      simp [NetworkServiceConfig.IsValid, hns, h1, kernelMECHANISM, vfioMECHANISM,
        GoResult.isErr]

/-- Witness for C5 at concrete descriptors: a kernel descriptor with two
segments, a kernel descriptor with a 17-character segment, and a vfio
descriptor with one segment all fail validation. -/
theorem isValid_mechanism_rules_witness :
    (NetworkServiceConfig.IsValid
      ⟨"ns", ["a", "b"], kernelMECHANISM, []⟩).isErr = true
  ∧ (NetworkServiceConfig.IsValid
      ⟨"ns", ["0123456789abcdefg"], kernelMECHANISM, []⟩).isErr = true
  ∧ (NetworkServiceConfig.IsValid
      ⟨"ns", ["x"], vfioMECHANISM, []⟩).isErr = true := by
  refine ⟨(isValid_mechanism_rules _).1 rfl (by decide),
    (isValid_mechanism_rules _).2.1 rfl "0123456789abcdefg" (by decide) (by decide),
    (isValid_mechanism_rules _).2.2 rfl (by decide)⟩

/-- C10: the 15-character interface check of `IsValid` indexes `cfg.Path[0]`
without first checking that the path is non-empty, so a kernel descriptor
with zero path segments — exactly what parsing `kernel://my-service`
produces — makes validation panic with an out-of-range index instead of
returning success or an error.  The claim (validation is total) is the
evident intent; the code is the slip. -/
theorem isValid_empty_kernel_path_panics :
    NetworkServiceConfig.IsValid
        { NetworkService := "my-service", Path := [],
          Mechanism := kernelMECHANISM, Labels := [] } =
      GoResult.panic "runtime error: index out of range [0] with length 0" := by
  rfl

/-! ## C6 / C7 — default merging -/

/-- A supported mechanism constant is never the empty string. -/
theorem configMechanisms_some_ne (s m : String)
    (h : configMechanisms s = some m) : m ≠ "" := by
  unfold configMechanisms at h
  by_cases h1 : s = "kernel"
  · rw [if_pos h1] at h
    injection h with h
    subst h
    decide
  · rw [if_neg h1] at h
    by_cases h2 : s = "vfio"
    · rw [if_pos h2] at h
      injection h with h
      subst h
      decide
    · rw [if_neg h2] at h
      cases h

/-- A binding present before a `mergeLabelStep` survives it with its value. -/
theorem lookup_mergeLabelStep (labels : List (String × String)) (kv k : String)
    (v : String) (h : labels.lookup k = some v) :
    (mergeLabelStep labels kv).lookup k = some v := by
  unfold mergeLabelStep
  by_cases hp : (labels.lookup (trimSpaces (entryKeyValue kv).1)).isSome
  · rw [if_pos hp]
    exact h
  · rw [if_neg hp, List.lookup_append, h]
    rfl

/-- A binding present before `mergeLabels` survives the whole loop. -/
theorem lookup_mergeLabels (confLabels : List String)
    (labels : List (String × String)) (k v : String)
    (h : labels.lookup k = some v) :
    (mergeLabels labels confLabels).lookup k = some v := by
  induction confLabels generalizing labels with
  | nil => exact h
  | cons kv rest ih => exact ih _ (lookup_mergeLabelStep labels kv k v h)

/-- A key present before a `mergeLabelStep` is still present after it. -/
theorem isSome_mergeLabelStep (labels : List (String × String)) (kv k : String)
    (h : (labels.lookup k).isSome) :
    ((mergeLabelStep labels kv).lookup k).isSome := by
  obtain ⟨v, hv⟩ := Option.isSome_iff_exists.mp h
  rw [lookup_mergeLabelStep labels kv k v hv]
  rfl

/-- A key present before `mergeLabels` is still present after it. -/
theorem isSome_mergeLabels (confLabels : List String)
    (labels : List (String × String)) (k : String)
    (h : (labels.lookup k).isSome) :
    ((mergeLabels labels confLabels).lookup k).isSome := by
  induction confLabels generalizing labels with
  | nil => exact h
  | cons kv rest ih => exact ih _ (isSome_mergeLabelStep labels kv k h)

/-- After a `mergeLabelStep` for an entry, that entry's key is present. -/
theorem isSome_mergeLabelStep_own (labels : List (String × String))
    (kv : String) :
    ((mergeLabelStep labels kv).lookup (trimSpaces (entryKeyValue kv).1)).isSome := by
  unfold mergeLabelStep
  by_cases hp : (labels.lookup (trimSpaces (entryKeyValue kv).1)).isSome
  · rw [if_pos hp]
    exact hp
  · rw [if_neg hp, List.lookup_append]
    rw [Option.not_isSome_iff_eq_none] at hp
    rw [hp]
    simp

/-- After `mergeLabels`, every processed entry's key is present. -/
theorem isSome_mergeLabels_own (confLabels : List String)
    (labels : List (String × String)) (kv : String) (hkv : kv ∈ confLabels) :
    ((mergeLabels labels confLabels).lookup
      (trimSpaces (entryKeyValue kv).1)).isSome := by
  induction confLabels generalizing labels with
  | nil => cases hkv
  | cons kv0 rest ih =>
    rcases List.mem_cons.mp hkv with rfl | hmem
    · exact isSome_mergeLabels rest _ _ (isSome_mergeLabelStep_own labels kv)
    · exact ih _ hmem

/-- `mergeLabels` is the identity when every entry's key is already present. -/
theorem mergeLabels_eq_self (confLabels : List String)
    (labels : List (String × String))
    (h : ∀ kv ∈ confLabels, (labels.lookup (trimSpaces (entryKeyValue kv).1)).isSome) :
    mergeLabels labels confLabels = labels := by
  induction confLabels with
  | nil => rfl
  | cons kv0 rest ih =>
    have hstep : mergeLabelStep labels kv0 = labels := by
      unfold mergeLabelStep
      rw [if_pos (h kv0 (List.mem_cons_self kv0 rest))]
    show mergeLabels (mergeLabelStep labels kv0) rest = labels
    rw [hstep]
    exact ih fun kv hkv => h kv (List.mem_cons_of_mem kv0 hkv)

/-- Running the label-default loop twice with the same defaults adds nothing
the second time. -/
theorem mergeLabels_idem (confLabels : List String)
    (labels : List (String × String)) :
    mergeLabels (mergeLabels labels confLabels) confLabels =
      mergeLabels labels confLabels :=
  mergeLabels_eq_self confLabels _ fun kv hkv =>
    isSome_mergeLabels_own confLabels labels kv hkv

/-- When the descriptor already has a mechanism, `MergeWithConfigOptions`
only runs the label loop and validation. -/
theorem merge_of_mech_ne (cfg : NetworkServiceConfig) (conf : Config)
    (h : cfg.Mechanism ≠ "") :
    cfg.MergeWithConfigOptions conf =
      ({ cfg with Labels := mergeLabels cfg.Labels conf.Labels },
       NetworkServiceConfig.IsValid
         { cfg with Labels := mergeLabels cfg.Labels conf.Labels }) := by
  unfold NetworkServiceConfig.MergeWithConfigOptions
  rw [if_neg (by intro hc; exact h hc.1), if_neg (by intro hc; exact h hc.1)]

/-- C6: merging never changes a non-empty field of the descriptor — a
non-empty mechanism is kept as it was, and every label key already present
keeps its descriptor value, whatever the defaults contain. -/
theorem merge_preserves_nonempty_fields (cfg : NetworkServiceConfig)
    (conf : Config) :
    (cfg.Mechanism ≠ "" →
       (cfg.MergeWithConfigOptions conf).1.Mechanism = cfg.Mechanism)
  ∧ (∀ k v, cfg.Labels.lookup k = some v →
       (cfg.MergeWithConfigOptions conf).1.Labels.lookup k = some v) := by
  constructor
  · intro h
    rw [merge_of_mech_ne cfg conf h]
  · intro k v hkv
    by_cases h0 : cfg.Mechanism = "" ∧ conf.Mechanism = ""
    · unfold NetworkServiceConfig.MergeWithConfigOptions
      rw [if_pos h0]
      exact hkv
    · by_cases h1 : cfg.Mechanism = ""
      · have h2 : conf.Mechanism ≠ "" := fun hc => h0 ⟨h1, hc⟩
        unfold NetworkServiceConfig.MergeWithConfigOptions
        rw [if_neg h0, if_pos ⟨h1, h2⟩]
        cases hm : configMechanisms conf.Mechanism with
        | none => exact hkv
        | some m => exact lookup_mergeLabels conf.Labels cfg.Labels k v hkv
      · rw [merge_of_mech_ne cfg conf h1]
        exact lookup_mergeLabels conf.Labels cfg.Labels k v hkv

/-- Witness for C6 at a concrete descriptor: merging a kernel descriptor
with label `B = 40` against defaults with mechanism `vfio` and labels
`A=20, B=99` keeps the kernel mechanism and keeps `B = 40`. -/
theorem merge_preserves_nonempty_fields_witness :
    (NetworkServiceConfig.MergeWithConfigOptions
        ⟨"my-service", ["nsmKernel"], kernelMECHANISM, [("B", "40")]⟩
        ⟨"nsc", ["A=20", "B=99"], "vfio", []⟩).1.Mechanism = kernelMECHANISM
  ∧ (NetworkServiceConfig.MergeWithConfigOptions
        ⟨"my-service", ["nsmKernel"], kernelMECHANISM, [("B", "40")]⟩
        ⟨"nsc", ["A=20", "B=99"], "vfio", []⟩).1.Labels.lookup "B" = some "40" := by
  exact ⟨(merge_preserves_nonempty_fields _ _).1 (by decide),
    (merge_preserves_nonempty_fields _ _).2 "B" "40" (by rfl)⟩

/-- C7: merging is idempotent — a second merge with the same defaults
changes nothing, neither the descriptor nor the returned result. -/
theorem merge_idempotent (cfg : NetworkServiceConfig) (conf : Config) :
    ((cfg.MergeWithConfigOptions conf).1).MergeWithConfigOptions conf =
      cfg.MergeWithConfigOptions conf := by
  by_cases h0 : cfg.Mechanism = "" ∧ conf.Mechanism = ""
  · have hres : cfg.MergeWithConfigOptions conf = (cfg, .err "no mechanism specified") := by
      unfold NetworkServiceConfig.MergeWithConfigOptions
      rw [if_pos h0]
    rw [hres]
    exact hres
  · by_cases h1 : cfg.Mechanism = ""
    · have h2 : conf.Mechanism ≠ "" := fun hc => h0 ⟨h1, hc⟩
      cases hm : configMechanisms conf.Mechanism with
      | none =>
        have hres : cfg.MergeWithConfigOptions conf =
            (cfg, .err ("invalid mechanism specified " ++ conf.Mechanism)) := by
          unfold NetworkServiceConfig.MergeWithConfigOptions
          rw [if_neg h0, if_pos ⟨h1, h2⟩, hm]
        rw [hres]
        exact hres
      | some m =>
        have hres : cfg.MergeWithConfigOptions conf =
            ({ cfg with Mechanism := m, Labels := mergeLabels cfg.Labels conf.Labels },
             NetworkServiceConfig.IsValid
               { cfg with Mechanism := m, Labels := mergeLabels cfg.Labels conf.Labels }) := by
          unfold NetworkServiceConfig.MergeWithConfigOptions
          rw [if_neg h0, if_pos ⟨h1, h2⟩, hm]
        have hne : ({ cfg with Mechanism := m,
                               Labels := mergeLabels cfg.Labels conf.Labels } :
            NetworkServiceConfig).Mechanism ≠ "" :=
          configMechanisms_some_ne conf.Mechanism m hm
        rw [hres, merge_of_mech_ne _ conf hne]
        simp only [mergeLabels_idem]
    · have hne : ({ cfg with Labels := mergeLabels cfg.Labels conf.Labels } :
            NetworkServiceConfig).Mechanism ≠ "" := h1
      rw [merge_of_mech_ne cfg conf h1, merge_of_mech_ne _ conf hne]
      simp only [mergeLabels_idem]

/-! ## C8 — request grouping

The claim states that two descriptors with identical service name and labels
but different path segments produce two independent connections with
distinct ids.  `appendNSConf` does the opposite: it groups such descriptors
into a single `requestConfig`, so `RunClient` issues one request and obtains
one connection for the pair. -/

/-- A kernel descriptor for `my-service` with interface `if-1` and label
`label-1=value-1` (as in the repository's own `TestConnectNSM`). -/
def nsConfIfOne : NetworkServiceConfig :=
  { NetworkService := "my-service", Path := ["if-1"],
    Mechanism := kernelMECHANISM, Labels := [("label-1", "value-1")] }

/-- The same service and labels as `nsConfIfOne` but interface `if-2`. -/
def nsConfIfTwo : NetworkServiceConfig :=
  { NetworkService := "my-service", Path := ["if-2"],
    Mechanism := kernelMECHANISM, Labels := [("label-1", "value-1")] }

/-- Counterexample to C8: the two descriptors share service name and labels
and differ only in their path segment, yet `RunClient` groups them into a
single request and produces one connection, not two. -/
theorem run_client_merges_identical_descriptors :
    (runClientRequests "nsc" [nsConfIfOne, nsConfIfTwo]).length = 1
  ∧ ¬(runClientRequests "nsc" [nsConfIfOne, nsConfIfTwo]).length = 2
  ∧ groupConfigs [nsConfIfOne, nsConfIfTwo] =
      [{ nsName := "my-service", labels := [("label-1", "value-1")],
         nsConfs := [nsConfIfOne, nsConfIfTwo] }] := by
  refine ⟨by decide, by decide, by decide⟩

/-- C8 amended: two descriptors with identical `networkService` and
`DeepEqual` labels are grouped by `appendNSConf` into one request — the
client produces a single connection (id `name-0`) whose group carries both
descriptors; two descriptors differing in service name or labels produce two
connections with the distinct ids `name-0` and `name-1`. -/
theorem run_client_grouping (name : String) (d1 d2 : NetworkServiceConfig) :
    (d1.NetworkService = d2.NetworkService →
       labelsDeepEqual d1.Labels d2.Labels = true →
       groupConfigs [d1, d2] =
         [{ nsName := d1.NetworkService, labels := d1.Labels,
            nsConfs := [d1, d2] }]
       ∧ runClientRequests name [d1, d2] =
           [{ id := name ++ "-" ++ toString 0,
              networkService := d1.NetworkService, labels := d1.Labels }])
  ∧ (¬(d1.NetworkService = d2.NetworkService ∧
        labelsDeepEqual d1.Labels d2.Labels = true) →
       (runClientRequests name [d1, d2]).map ClientRequest.id =
         [name ++ "-" ++ toString 0, name ++ "-" ++ toString 1])
  ∧ name ++ "-" ++ toString 0 ≠ name ++ "-" ++ toString 1 := by
  have hgroup1 : groupConfigs [d1, d2] = appendNSConf d2
      [{ nsName := d1.NetworkService, labels := d1.Labels, nsConfs := [d1] }] := rfl
  refine ⟨?_, ?_, ?_⟩
  · intro hns hlb
    have hg : groupConfigs [d1, d2] =
        [{ nsName := d1.NetworkService, labels := d1.Labels, nsConfs := [d1, d2] }] := by
      rw [hgroup1]
      show (if _ ∧ _ then _ else _) = _
      rw [if_pos ⟨hns, hlb⟩]
      rfl
    refine ⟨hg, ?_⟩
    show (groupConfigs [d1, d2]).enum.map _ = _
    rw [hg]
    rfl
  · intro hne
    have hg : groupConfigs [d1, d2] =
        [{ nsName := d1.NetworkService, labels := d1.Labels, nsConfs := [d1] },
         { nsName := d2.NetworkService, labels := d2.Labels, nsConfs := [d2] }] := by
      rw [hgroup1]
      show (if _ ∧ _ then _ else _) = _
      rw [if_neg (by simpa using hne)]
      rfl
    show ((groupConfigs [d1, d2]).enum.map _).map _ = _
    rw [hg]
    rfl
  · intro h
    have hd := congrArg String.data h
    simp only [String.data_append] at hd
    have h1 := List.append_cancel_left hd
    revert h1
    decide

/-- A kernel descriptor for `my-service` with different labels, so it is not
grouped with `nsConfIfOne`. -/
def nsConfOtherLabels : NetworkServiceConfig :=
  { NetworkService := "my-service", Path := ["if-3"],
    Mechanism := kernelMECHANISM, Labels := [("label-2", "value-2")] }

/-- Witness for the amended C8 at concrete descriptors: a pair differing only
in labels yields two requests with distinct ids, and the identical pair is
grouped into one request config. -/
theorem run_client_grouping_witness :
    (runClientRequests "nsc" [nsConfIfOne, nsConfOtherLabels]).map ClientRequest.id =
      ["nsc" ++ "-" ++ toString 0, "nsc" ++ "-" ++ toString 1]
  ∧ groupConfigs [nsConfIfOne, nsConfIfTwo] =
      [{ nsName := nsConfIfOne.NetworkService, labels := nsConfIfOne.Labels,
         nsConfs := [nsConfIfOne, nsConfIfTwo] }] := by
  refine ⟨(run_client_grouping "nsc" nsConfIfOne nsConfOtherLabels).2.1 (by decide),
    ((run_client_grouping "nsc" nsConfIfOne nsConfIfTwo).1 (by decide) (by decide)).1⟩

/-! ## C4 / C1 — monitored-snapshot lookup and probe-gated reselect -/

/-- A snapshot returned by `lookupMonitored` satisfies the `Range` loop's
match predicate. -/
theorem lookupMonitored_connMatches (connectionID mechType : String)
    (l : List (String × Connection)) (conn : Connection)
    (h : lookupMonitored connectionID mechType l = some conn) :
    connMatches connectionID mechType conn = true := by
  induction l with
  | nil => cases h
  | cons p rest ih =>
    obtain ⟨k, c⟩ := p
    cases hc : connMatches connectionID mechType c with
    | true =>
      simp only [lookupMonitored, hc, if_true] at h
      injection h with h
      subst h
      exact hc
    | false =>
      simp only [lookupMonitored, hc] at h
      exact ih (by simpa using h)

/-- Unpacking the match predicate: the snapshot has a path at index 1 whose
first segment id is the descriptor's connection id, and a mechanism of the
descriptor's mechanism type. -/
theorem connMatches_spec (connectionID mechType : String) (conn : Connection)
    (h : connMatches connectionID mechType conn = true) :
    (∃ p, conn.path = some p ∧ p.index = 1
       ∧ ∃ seg rest, p.pathSegments = seg :: rest ∧ seg.id = connectionID)
  ∧ (∃ m, conn.mechanism = some m ∧ m.type = mechType) := by
  unfold connMatches at h
  cases hp : conn.path with
  | none =>
    rw [hp] at h
    simp at h
  | some p =>
    cases hm : conn.mechanism with
    | none =>
      rw [hp, hm] at h
      simp at h
    | some m =>
      rw [hp, hm] at h
      dsimp only at h
      cases hseg : p.pathSegments with
      | nil =>
        rw [hseg] at h
        simp at h
      | cons seg rest =>
        rw [hseg] at h
        simp only [Bool.and_eq_true, decide_eq_true_eq] at h
        obtain ⟨⟨h1, h2⟩, h3⟩ := h
        exact ⟨⟨p, rfl, h1, seg, rest, hseg, h2⟩, ⟨m, rfl, h3⟩⟩

/-- When a monitored snapshot matches, the constructed request's connection
is the normalized snapshot, passed through the reselect rewrite exactly when
the snapshot is `DOWN` and either the liveness check is disabled or the
probe reports not-alive. -/
theorem constructRequest_found (enabled : Bool) (probe : Connection → Bool)
    (connectionID : String) (u : NSURL) (monitored : List (String × Connection))
    (conn : Connection)
    (h : lookupMonitored connectionID u.mechanism.type monitored = some conn) :
    (constructRequest enabled probe connectionID u monitored).connection =
      if (normalizeSnapshot connectionID conn).state = ConnState.DOWN &&
          (!enabled || !probe (normalizeSnapshot connectionID conn)) then
        reselectConnection (normalizeSnapshot connectionID conn)
      else normalizeSnapshot connectionID conn := by
  unfold constructRequest
  rw [h]
  dsimp only
  rw [apply_ite (fun r : NetworkServiceRequest => r.connection)]

/-- C4: `lookupMonitored` returns a snapshot only if the snapshot's path's
first segment id equals the descriptor's connection id and its mechanism
type equals the descriptor's; and on a match the request's connection has
its id rewritten to the descriptor id and its path index normalized to 0. -/
theorem lookup_monitored_spec (u : NSURL) (connectionID : String)
    (monitored : List (String × Connection)) (conn : Connection)
    (h : lookupMonitored connectionID u.mechanism.type monitored = some conn) :
    (∃ p, conn.path = some p
       ∧ ∃ seg rest, p.pathSegments = seg :: rest ∧ seg.id = connectionID)
  ∧ (∃ m, conn.mechanism = some m ∧ m.type = u.mechanism.type)
  ∧ (∀ enabled probe,
      (constructRequest enabled probe connectionID u monitored).connection.id
          = connectionID
      ∧ ∀ p, (constructRequest enabled probe connectionID u monitored).connection.path
          = some p → p.index = 0) := by
  have hmatch := lookupMonitored_connMatches connectionID u.mechanism.type monitored conn h
  obtain ⟨⟨p, hp, _, seg, rest, hseg, hsegid⟩, hm⟩ :=
    connMatches_spec connectionID u.mechanism.type conn hmatch
  refine ⟨⟨p, hp, seg, rest, hseg, hsegid⟩, hm, fun enabled probe => ?_⟩
  rw [constructRequest_found enabled probe connectionID u monitored conn h]
  have hid : ∀ c, (reselectConnection c).id = c.id := fun c => rfl
  have hpathr : ∀ c, (reselectConnection c).path = c.path := fun c => rfl
  constructor
  · split
    · rw [hid]
      rfl
    · rfl
  · intro q hq
    have hq2 : (normalizeSnapshot connectionID conn).path = some q := by
      rcases hq3 : (normalizeSnapshot connectionID conn).state = ConnState.DOWN &&
          (!enabled || !probe (normalizeSnapshot connectionID conn)) with _ | _
      · rw [if_neg (by simp [hq3])] at hq
        exact hq
      · rw [if_pos (by simp [hq3])] at hq
        rw [hpathr] at hq
        exact hq
    rw [show (normalizeSnapshot connectionID conn).path
        = conn.path.map (fun pp => { pp with index := 0 }) from rfl, hp] at hq2
    injection hq2 with hq2
    rw [← hq2]

/-- A monitored snapshot in state `DOWN` for descriptor id `nsc-0`: placed at
an endpoint, with a kernel mechanism, a populated connection context, and a
path at index 1 whose first segment is the client's. -/
def downSnapshot : Connection :=
  { id := "srv-id", networkService := "ns",
    mechanism := some { type := "KERNEL" },
    networkServiceEndpointName := "nse-1", context := some (),
    state := ConnState.DOWN,
    path := some { index := 1,
                   pathSegments := [{ id := "nsc-0" }, { id := "nse-1" }] },
    labels := [] }

/-- The descriptor URL view used with `downSnapshot`: service `ns`, kernel
mechanism. -/
def nsURLKernel : NSURL :=
  { networkService := "ns", labels := [], mechanism := { type := "KERNEL" } }

/-- A monitor cache containing exactly `downSnapshot`. -/
def monitoredCache : List (String × Connection) := [("conn-1", downSnapshot)]

/-- Witness for C4 at the concrete cache: the lookup finds `downSnapshot`,
whose first path segment id is `nsc-0` and whose mechanism type matches, and
the constructed request carries id `nsc-0` with path index 0. -/
theorem lookup_monitored_spec_witness :
    (∃ m, downSnapshot.mechanism = some m ∧ m.type = nsURLKernel.mechanism.type)
  ∧ (constructRequest true (fun _ => true) "nsc-0" nsURLKernel monitoredCache).connection.id
      = "nsc-0" := by
  have h := lookup_monitored_spec nsURLKernel "nsc-0" monitoredCache downSnapshot (by decide)
  exact ⟨h.2.1, (h.2.2 true (fun _ => true)).1⟩

/-- Counterexample to C1: the snapshot is found and is `DOWN`, the probe
reports alive for every connection, and still the next request does not keep
the snapshot's mechanism — with the liveness check disabled
(`NSM_LIVENESS_CHECK_ENABLED=false`) the source short-circuits
`!c.LivenessCheckEnabled || !KernelLivenessCheck(...)` and reselects without
consulting the probe, clearing mechanism and setting `RESELECT_REQUESTED`. -/
theorem construct_request_reselects_despite_alive_probe :
    lookupMonitored "nsc-0" nsURLKernel.mechanism.type monitoredCache = some downSnapshot
  ∧ downSnapshot.state = ConnState.DOWN
  ∧ (constructRequest false (fun _ => true) "nsc-0" nsURLKernel monitoredCache).connection.mechanism
      = none
  ∧ (constructRequest false (fun _ => true) "nsc-0" nsURLKernel monitoredCache).connection.state
      = ConnState.RESELECT_REQUESTED := by
  decide

/-- C1 amended: for a found snapshot in state `DOWN`, when the liveness check
is enabled the probe gates reselect exactly as the claim states (alive →
snapshot kept unchanged; not-alive → mechanism, endpoint and context cleared
and state set to `RESELECT_REQUESTED`); when the liveness check is disabled
the probe is not consulted and the reselect rewrite is always applied.  The
connection id is the descriptor's in every case. -/
theorem construct_request_reselect_policy (enabled : Bool)
    (probe : Connection → Bool) (connectionID : String) (u : NSURL)
    (monitored : List (String × Connection)) (conn : Connection)
    (hfound : lookupMonitored connectionID u.mechanism.type monitored = some conn)
    (hdown : conn.state = ConnState.DOWN) :
    (enabled = true → probe (normalizeSnapshot connectionID conn) = true →
       (constructRequest enabled probe connectionID u monitored).connection =
         normalizeSnapshot connectionID conn)
  ∧ ((enabled = false ∨ probe (normalizeSnapshot connectionID conn) = false) →
       (constructRequest enabled probe connectionID u monitored).connection =
         reselectConnection (normalizeSnapshot connectionID conn))
  ∧ (constructRequest enabled probe connectionID u monitored).connection.id
      = connectionID := by
  have hkey := constructRequest_found enabled probe connectionID u monitored conn hfound
  have hstate : (normalizeSnapshot connectionID conn).state = ConnState.DOWN := hdown
  refine ⟨?_, ?_, ?_⟩
  · intro he hp
    rw [hkey, if_neg]
    subst he
    simp [hp]
  · intro hcase
    rw [hkey, if_pos]
    rcases hcase with he | hp
    · subst he
      simp [hstate]
    · simp [hstate, hp]
  · rw [hkey]
    split
    · rfl
    · rfl

/-- Witness for the amended C1 at the concrete cache: with the check enabled,
an alive probe keeps the normalized snapshot and a not-alive probe yields
the reselect rewrite. -/
theorem construct_request_reselect_policy_witness :
    (constructRequest true (fun _ => true) "nsc-0" nsURLKernel monitoredCache).connection =
      normalizeSnapshot "nsc-0" downSnapshot
  ∧ (constructRequest true (fun _ => false) "nsc-0" nsURLKernel monitoredCache).connection =
      reselectConnection (normalizeSnapshot "nsc-0" downSnapshot) := by
  have h1 := construct_request_reselect_policy true (fun _ => true) "nsc-0"
    nsURLKernel monitoredCache downSnapshot (by decide) (by decide)
  have h2 := construct_request_reselect_policy true (fun _ => false) "nsc-0"
    nsURLKernel monitoredCache downSnapshot (by decide) (by decide)
  exact ⟨h1.1 rfl rfl, h2.2.1 (Or.inr rfl)⟩

/-! ## C9 — the retry loop and cancellation -/

/-- C9: the per-descriptor request loop has no cancellation check — once the
context is cancelled every `nsmClient.Request` call fails (modelled by the
all-false outcome stream), and the loop is still running after every number
of iterations, issuing a new attempt each time, instead of aborting.  The
specification's requirement (abort immediately on cancellation, no further
attempt) is the evident intent; the `continue`-on-error body is the slip. -/
theorem request_loop_never_aborts (n : Nat) :
    loopRun (fun _ => false) n = LoopState.running n := by
  induction n with
  | zero => rfl
  | succ n ih =>
    rw [loopRun, ih]
    rfl

/-! ## C3 — shutdown cleanup -/

/-- Counterexample to C3's ordering sentence: in the deferred-shutdown
revision, two descriptors established in the order `nsc-0`, `nsc-1` are
closed in the order `nsc-1`, `nsc-0` — the reverse of the order their
cleanups were recorded. -/
theorem deferred_cleanup_reverses_order :
    deferredCloseOrder ["nsc-0", "nsc-1"] = ["nsc-1", "nsc-0"]
  ∧ ¬deferredCloseOrder ["nsc-0", "nsc-1"] = ["nsc-0", "nsc-1"] := by
  decide

/-- The established prefix is a sublist of the configured requests. -/
theorem establishedConns_sublist (outcome : Nat → Bool) :
    ∀ (i : Nat) (reqs : List ClientRequest),
      (establishedConns outcome i reqs).Sublist reqs := by
  intro i reqs
  induction reqs generalizing i with
  | nil => exact List.Sublist.refl []
  | cons r rest ih =>
    show (if outcome i then r :: establishedConns outcome (i + 1) rest
        else []).Sublist (r :: rest)
    split
    · exact List.Sublist.cons₂ r (ih (i + 1))
    · exact List.nil_sublist _

/-- C3 amended: the explicit shutdown loop closes every established
connection exactly once, in the order the connections were added, and a
close failure never changes which entries run (the trace of close calls is
the established list itself, whatever `closeFails` says); descriptors that
never established get no close call.  The deferred-shutdown revision closes
the same entries exactly once each, but in reverse order of addition. -/
theorem cleanup_closes_each_established_once (outcome : Nat → Bool)
    (closeFails : String → Bool) (reqs : List ClientRequest)
    (hids : (reqs.map ClientRequest.id).Nodup) :
    ((cleanupTrace closeFails (establishedConns outcome 0 reqs)).map CloseCall.connId
       = (establishedConns outcome 0 reqs).map ClientRequest.id)
  ∧ (∀ r ∈ reqs, r ∈ establishedConns outcome 0 reqs →
       ((cleanupTrace closeFails (establishedConns outcome 0 reqs)).map
         CloseCall.connId).count r.id = 1)
  ∧ (∀ r ∈ reqs, r ∉ establishedConns outcome 0 reqs →
       ((cleanupTrace closeFails (establishedConns outcome 0 reqs)).map
         CloseCall.connId).count r.id = 0)
  ∧ (∀ x, (deferredCloseOrder
        ((establishedConns outcome 0 reqs).map ClientRequest.id)).count x
       = ((establishedConns outcome 0 reqs).map ClientRequest.id).count x) := by
  have hsub : (establishedConns outcome 0 reqs).Sublist reqs :=
    establishedConns_sublist outcome 0 reqs
  have hmap : (cleanupTrace closeFails (establishedConns outcome 0 reqs)).map
      CloseCall.connId = (establishedConns outcome 0 reqs).map ClientRequest.id := by
    unfold cleanupTrace
    rw [List.map_map]
    rfl
  have hnodup : ((establishedConns outcome 0 reqs).map ClientRequest.id).Nodup :=
    List.Nodup.sublist (List.Sublist.map ClientRequest.id hsub) hids
  refine ⟨hmap, ?_, ?_, ?_⟩
  · intro r _ hr
    rw [hmap]
    exact List.count_eq_one_of_mem hnodup (List.mem_map_of_mem ClientRequest.id hr)
  · intro r hr hnotin
    rw [hmap]
    rw [List.count_eq_zero]
    intro hmem
    obtain ⟨e, he, heq⟩ := List.mem_map.mp hmem
    have : e = r :=
      List.inj_on_of_nodup_map hids (hsub.subset he) hr heq
    exact hnotin (this ▸ he)
  · intro x
    simp [deferredCloseOrder, List.count_reverse]

/-- Witness for the amended C3 at a concrete run: two configured descriptors,
only the first of which establishes; the close trace is exactly `[nsc-0]`
even when every close fails, so the established descriptor is closed once
and the never-established one not at all. -/
theorem cleanup_closes_each_established_once_witness :
    ((cleanupTrace (fun _ => true)
        (establishedConns (fun i => i = 0) 0
          [{ id := "nsc-0", networkService := "ns", labels := [] },
           { id := "nsc-1", networkService := "ns", labels := [] }])).map
      CloseCall.connId).count "nsc-0" = 1
  ∧ ((cleanupTrace (fun _ => true)
        (establishedConns (fun i => i = 0) 0
          [{ id := "nsc-0", networkService := "ns", labels := [] },
           { id := "nsc-1", networkService := "ns", labels := [] }])).map
      CloseCall.connId).count "nsc-1" = 0 := by
  have h := cleanup_closes_each_established_once (fun i => i = 0) (fun _ => true)
    [{ id := "nsc-0", networkService := "ns", labels := [] },
     { id := "nsc-1", networkService := "ns", labels := [] }] (by decide)
  refine ⟨h.2.1 { id := "nsc-0", networkService := "ns", labels := [] }
      (by decide) (by decide),
    h.2.2.1 { id := "nsc-1", networkService := "ns", labels := [] }
      (by decide) (by decide)⟩

end NSC
